import Mathlib

/-!
Shallow embedding of `src/neighbor.cu` (GPUMD neighbor-list lifecycle).

The CUDA `real` type is modelled by `ℚ`; machine `int` values by `ℤ`
(indices that are always nonnegative by `ℕ`).  Each CUDA kernel becomes a
pure Lean function: a grid of threads indexed by `blockIdx`/`threadIdx`
turns into functions of the thread index, and the shared-memory tree
reductions (`__syncthreads`-separated halving steps, plus the
warp-synchronous `warp_reduce`) become explicit sequential updates of the
whole shared array, one function-update per source statement.
-/

namespace GPUMD

/-- One `__syncthreads`-separated halving step of the block reduction in
`check_atom_distance_1/2`: `if (tid < stride) s_sum[tid] += s_sum[tid + stride]`,
acting simultaneously on all lanes. -/
def blockStep (s : ℕ → ℤ) (stride : ℕ) : ℕ → ℤ :=
  fun t => if t < stride then s t + s (t + stride) else s t

/-- One statement of the warp-synchronous `warp_reduce(volatile int *s, int t)`:
`s[t] += s[t + stride]` executed by every lane `t < 32` (the kernels call it
under `if (tid < 32)`), with no bound `t < stride`. -/
def warpStep (s : ℕ → ℤ) (stride : ℕ) : ℕ → ℤ :=
  fun t => if t < 32 then s t + s (t + stride) else s t

/-- `warp_reduce`: the six strides 32, 16, 8, 4, 2, 1 applied in order. -/
def warp_reduce (s : ℕ → ℤ) : ℕ → ℤ :=
  [32, 16, 8, 4, 2, 1].foldl warpStep s

/-- The full 1024-lane shared-memory reduction used by both kernels:
the four guarded halving steps (strides 512, 256, 128, 64), then
`warp_reduce`, and the value written out by thread 0 (`s_sum[0]`). -/
def blockReduce (s : ℕ → ℤ) : ℤ :=
  warp_reduce ([512, 256, 128, 64].foldl blockStep s) 0

/-- Squared displacement of particle `n` between the reference positions
`(x0, y0, z0)` and the current positions `(x, y, z)`, exactly as
`check_atom_distance_1` computes it (`dx*dx + dy*dy + dz*dz`). -/
def sq_disp (x0 y0 z0 x y z : ℕ → ℚ) (n : ℕ) : ℚ :=
  (x n - x0 n) * (x n - x0 n) + (y n - y0 n) * (y n - y0 n) +
    (z n - z0 n) * (z n - z0 n)

/-- Kernel `check_atom_distance_1`, launched as `<<<M, 1024>>>`: block `bid`
loads a 0/1 exceed flag per lane (`n = bid * blockDim.x + tid`, zero when
`n >= N`) and tree-reduces the 1024 flags into `g_sum[bid]`. -/
def check_atom_distance_1 (N : ℕ) (d2 : ℚ) (x0 y0 z0 x y z : ℕ → ℚ)
    (bid : ℕ) : ℤ :=
  blockReduce fun tid =>
    if bid * 1024 + tid < N ∧ d2 < sq_disp x0 y0 z0 x y z (bid * 1024 + tid)
    then 1 else 0

/-- Kernel `check_atom_distance_2`, launched as `<<<1, 1024>>>`: lane `tid`
accumulates `g_sum_i[tid + patch * 1024]` over `(M - 1) / 1024 + 1` patches
(skipping indices `>= M`), then the same tree reduction produces
`g_sum_o[0]`. -/
def check_atom_distance_2 (M : ℕ) (g : ℕ → ℤ) : ℤ :=
  blockReduce fun tid =>
    ∑ patch ∈ Finset.range ((M - 1) / 1024 + 1),
      if tid + patch * 1024 < M then g (tid + patch * 1024) else 0

/-- `HALF` from `neighbor.cu` (0.5, single or double precision). -/
def HALF : ℚ := 1 / 2

/-- Host function `check_atom_distance`: runs the two kernels with
`M = (N - 1) / 1024 + 1` blocks and returns the reduced scalar.  The
threshold is kept as the parameter `d2` that the kernels receive; the
source fixes it to `HALF * HALF` (commented "to be generalized to use
input"), and the driver below passes exactly that value. -/
def check_atom_distance (N : ℕ) (d2 : ℚ) (x0 y0 z0 x y z : ℕ → ℚ) : ℤ :=
  check_atom_distance_2 ((N - 1) / 1024 + 1)
    (check_atom_distance_1 N d2 x0 y0 z0 x y z)

/-! ### Data model: `Atom`, `Parameters`, neighbor list -/

/-- The fields of `Atom` used by `neighbor.cu`: the neighbor counts `NN`
and the flat neighbor-index list `NL`. -/
structure NeighborList where
  NN : ℕ → ℤ
  NL : ℕ → ℕ → ℤ

/-- The fields of `Atom` this file reads or writes: current positions
`x, y, z`, reference positions `x0, y0, z0`, the neighbor list, and the
box edge lengths `box_length[0..2]`. -/
structure AtomState where
  x : ℕ → ℚ
  y : ℕ → ℚ
  z : ℕ → ℚ
  x0 : ℕ → ℚ
  y0 : ℕ → ℚ
  z0 : ℕ → ℚ
  nbr : NeighborList
  box_length : ℚ × ℚ × ℚ

/-- The fields of `Parameters` this file reads: particle count `N`,
neighbor capacity `neighbor.MN`, cutoff `neighbor.rc`, and the per-axis
periodicity flags (C `int`s, tested for truthiness or `== 1`). -/
structure Parameters where
  N : ℕ
  MN : ℤ
  rc : ℚ
  pbc_x : ℤ
  pbc_y : ℤ
  pbc_z : ℤ

/-! ### `gpu_apply_pbc` and `gpu_update_xyz0` -/

/-- The per-axis body of `gpu_apply_pbc`:
`if (c < 0) c += l; else if (c > l) c -= l;`. -/
def pbc_wrap (l c : ℚ) : ℚ :=
  if c < 0 then c + l else if c > l then c - l else c

/-- Kernel `gpu_apply_pbc`: threads `n < N` fold each coordinate whose
axis has periodicity flag exactly 1 back by one box length; everything
else is untouched.  Returns the new `(x, y, z)`. -/
def gpu_apply_pbc (N : ℕ) (pbc_x pbc_y pbc_z : ℤ) (box_length : ℚ × ℚ × ℚ)
    (x y z : ℕ → ℚ) : (ℕ → ℚ) × (ℕ → ℚ) × (ℕ → ℚ) :=
  (fun n => if n < N ∧ pbc_x = 1 then pbc_wrap box_length.1 (x n) else x n,
   fun n => if n < N ∧ pbc_y = 1 then pbc_wrap box_length.2.1 (y n) else y n,
   fun n => if n < N ∧ pbc_z = 1 then pbc_wrap box_length.2.2 (z n) else z n)

/-- `gpu_apply_pbc` lifted to `AtomState`, as the driver launches it:
only the current positions are replaced. -/
def apply_pbc_state (para : Parameters) (a : AtomState) : AtomState :=
  let p := gpu_apply_pbc para.N para.pbc_x para.pbc_y para.pbc_z
    a.box_length a.x a.y a.z
  { a with x := p.1, y := p.2.1, z := p.2.2 }

/-- Kernel `gpu_update_xyz0`: threads `n < N` copy the current position
into the reference position.  Returns the new `(x0, y0, z0)`. -/
def gpu_update_xyz0 (N : ℕ) (x y z x0 y0 z0 : ℕ → ℚ) :
    (ℕ → ℚ) × (ℕ → ℚ) × (ℕ → ℚ) :=
  (fun n => if n < N then x n else x0 n,
   fun n => if n < N then y n else y0 n,
   fun n => if n < N then z n else z0 n)

/-- `gpu_update_xyz0` lifted to `AtomState`, as the driver launches it. -/
def update_xyz0_state (para : Parameters) (a : AtomState) : AtomState :=
  let r := gpu_update_xyz0 para.N a.x a.y a.z a.x0 a.y0 a.z0
  { a with x0 := r.1, y0 := r.2.1, z0 := r.2.2 }

/-! ### `check_bound` -/

/-- The diagnostics printed by `check_bound`: one
`"Error: NN[%d] = %d > %d\n"` line `(n, cpu_NN[n], para->neighbor.MN)`
per offending particle, in loop order. -/
def check_bound_msgs (para : Parameters) (a : AtomState) :
    List (ℕ × ℤ × ℤ) :=
  ((List.range para.N).filter fun n => para.MN < a.nbr.NN n).map
    fun n => (n, a.nbr.NN n, para.MN)

/-- `check_bound`: scans all `N` neighbor counts, printing a diagnostic
and setting `flag = 1` for every `cpu_NN[n] > MN`, then calls `exit(1)`
iff the flag was set.  Modelled as the list of diagnostics together with
`some exitCode` (the `exit(1)`) or `none` (normal return).  It mutates no
simulation state. -/
def check_bound (para : Parameters) (a : AtomState) :
    List (ℕ × ℤ × ℤ) × Option ℤ :=
  let msgs := check_bound_msgs para a
  (msgs, if msgs = [] then none else some 1)

/-! ### Algorithm selection (`find_neighbor(para, atom)`) -/

/-- `NUM_OF_CELLS` from `neighbor.cu`: below this many cells the O(N²)
method is used. -/
def NUM_OF_CELLS : ℤ := 50

/-- Result of the selection logic: the `use_ON2` flag and the three cell
counts `cell_n_x/y/z`. -/
structure Selection where
  use_ON2 : Bool
  cell_n_x : ℤ
  cell_n_y : ℤ
  cell_n_z : ℤ

/-- The selection logic of the non-debug branch of
`find_neighbor(para, atom)`: per axis, a periodic axis (`if (para->pbc_x)`,
i.e. flag nonzero) gets `floor(box / rc)` cells and forces `use_ON2` when
that count is below 3; a non-periodic axis gets 1 cell; finally a total
cell count below `NUM_OF_CELLS` also forces `use_ON2`. -/
def select_method (para : Parameters) (box_length : ℚ × ℚ × ℚ) : Selection :=
  let cell_n_x : ℤ :=
    if para.pbc_x ≠ 0 then Int.floor (box_length.1 / para.rc) else 1
  let cell_n_y : ℤ :=
    if para.pbc_y ≠ 0 then Int.floor (box_length.2.1 / para.rc) else 1
  let cell_n_z : ℤ :=
    if para.pbc_z ≠ 0 then Int.floor (box_length.2.2 / para.rc) else 1
  let use_ON2 : Bool :=
    (decide (para.pbc_x ≠ 0) && decide (cell_n_x < 3)) ||
    (decide (para.pbc_y ≠ 0) && decide (cell_n_y < 3)) ||
    (decide (para.pbc_z ≠ 0) && decide (cell_n_z < 3)) ||
    decide (cell_n_x * cell_n_y * cell_n_z < NUM_OF_CELLS)
  ⟨use_ON2, cell_n_x, cell_n_y, cell_n_z⟩

/-- Modelled from the spec: `find_neighbor_ON2` (BruteForceBuilder) is an
external collaborator whose code is not part of this file; per the spec
contract it maps the parameters and current atom data to a new
`NeighborList` and mutates nothing else. -/
abbrev BuilderON2 := Parameters → AtomState → NeighborList

/-- Modelled from the spec: `find_neighbor_ON1` (CellListBuilder) is an
external collaborator whose code is not part of this file; it additionally
receives the three cell counts and, per the spec contract, produces a new
`NeighborList` and mutates nothing else. -/
abbrev BuilderON1 := Parameters → AtomState → ℤ → ℤ → ℤ → NeighborList

/-- The one-argument `find_neighbor(para, atom)` (non-debug branch):
run the selection logic, then invoke the O(N²) builder if `use_ON2` and
the cell-based builder (with the computed cell counts) otherwise. -/
def find_neighbor (on2 : BuilderON2) (on1 : BuilderON1)
    (para : Parameters) (a : AtomState) : NeighborList :=
  let s := select_method para a.box_length
  if s.use_ON2 then on2 para a else on1 para a s.cell_n_x s.cell_n_y s.cell_n_z

/-! ### The driver `find_neighbor(para, atom, is_first)` -/

/-- The observable operations of one driver invocation, in the order they
are issued. -/
inductive Event where
  | check
  | build
  | validate
  | wrap
  | snapshot
deriving DecidableEq

/-- Outcome of one driver invocation: either `check_bound` called
`exit(code)` after printing `msgs`, or the call returned normally with the
new atom state; both carry the issued operations in order. -/
inductive RunResult where
  | exited (msgs : List (ℕ × ℤ × ℤ)) (code : ℤ) (events : List Event)
  | ok (a : AtomState) (events : List Event)

/-- The driver `find_neighbor(para, atom, is_first)`.  On `is_first == 1`:
build, validate, snapshot references.  Otherwise: run
`check_atom_distance` (with `d2 = HALF * HALF`); if it returns nonzero,
build, validate, wrap positions back into the box, snapshot references;
else return at once. -/
def find_neighbor_driver (on2 : BuilderON2) (on1 : BuilderON1)
    (para : Parameters) (a : AtomState) (is_first : ℤ) : RunResult :=
  if is_first = 1 then
    let a1 : AtomState := { a with nbr := find_neighbor on2 on1 para a }
    match (check_bound para a1).2 with
    | some code =>
        .exited (check_bound para a1).1 code [.build, .validate]
    | none =>
        .ok (update_xyz0_state para a1) [.build, .validate, .snapshot]
  else
    if check_atom_distance para.N (HALF * HALF) a.x0 a.y0 a.z0 a.x a.y a.z
        ≠ 0 then
      let a1 : AtomState := { a with nbr := find_neighbor on2 on1 para a }
      match (check_bound para a1).2 with
      | some code =>
          .exited (check_bound para a1).1 code [.check, .build, .validate]
      | none =>
          .ok (update_xyz0_state para (apply_pbc_state para a1))
            [.check, .build, .validate, .wrap, .snapshot]
    else
      .ok a [.check]

/-! ### Concrete example inputs (used in example instantiations below) -/

/-- An empty neighbor list. -/
def exNbr : NeighborList := { NN := fun _ => 0, NL := fun _ _ => 0 }

/-- A one-particle state at the origin in a unit box. -/
def exAtom : AtomState :=
  { x := fun _ => 0, y := fun _ => 0, z := fun _ => 0,
    x0 := fun _ => 0, y0 := fun _ => 0, z0 := fun _ => 0,
    nbr := exNbr, box_length := (1, 1, 1) }

/-- Parameters for `exAtom`: one particle, capacity 0, cutoff 1, all axes
periodic. -/
def exPara : Parameters :=
  { N := 1, MN := 0, rc := 1, pbc_x := 1, pbc_y := 1, pbc_z := 1 }

/-- Parameters like `exPara` but with every periodicity flag cleared. -/
def exPara0 : Parameters :=
  { N := 1, MN := 0, rc := 1, pbc_x := 0, pbc_y := 0, pbc_z := 0 }

/-- A trivial O(N²) builder instance (empty list). -/
def exOn2 : BuilderON2 := fun _ _ => exNbr

/-- A trivial O(N) builder instance (empty list). -/
def exOn1 : BuilderON1 := fun _ _ _ _ _ => exNbr

/-! ### Correctness of the tree reduction -/

lemma sum_range_add (f : ℕ → ℤ) (a b : ℕ) :
    ∑ n ∈ Finset.range (a + b), f n
      = (∑ n ∈ Finset.range a, f n) + ∑ t ∈ Finset.range b, f (a + t) := by
  induction b with
  | zero => simp
  | succ b ih =>
      rw [Nat.add_succ, Finset.sum_range_succ, ih, Finset.sum_range_succ,
        add_assoc]

lemma sum_blocks (f : ℕ → ℤ) (T P : ℕ) :
    ∑ p ∈ Finset.range P, ∑ t ∈ Finset.range T, f (p * T + t)
      = ∑ n ∈ Finset.range (P * T), f n := by
  induction P with
  | zero => simp
  | succ P ih =>
      rw [Finset.sum_range_succ, ih, Nat.succ_mul, sum_range_add]

lemma sum_blockStep (s : ℕ → ℤ) (k m : ℕ) (hm : m = 2 * k) :
    ∑ t ∈ Finset.range k, blockStep s k t = ∑ t ∈ Finset.range m, s t := by
  subst hm
  rw [two_mul, sum_range_add, ← Finset.sum_add_distrib]
  refine Finset.sum_congr rfl fun t ht => ?_
  rw [Finset.mem_range] at ht
  simp only [blockStep, if_pos ht, Nat.add_comm]

lemma sum_warpStep (s : ℕ → ℤ) (k m : ℕ) (hk : k ≤ 32) (hm : m = 2 * k) :
    ∑ t ∈ Finset.range k, warpStep s k t = ∑ t ∈ Finset.range m, s t := by
  subst hm
  rw [two_mul, sum_range_add, ← Finset.sum_add_distrib]
  refine Finset.sum_congr rfl fun t ht => ?_
  rw [Finset.mem_range] at ht
  simp only [warpStep, if_pos (lt_of_lt_of_le ht hk), Nat.add_comm]

/-- The modelled shared-memory reduction really sums all 1024 lanes. -/
lemma blockReduce_eq_sum (s : ℕ → ℤ) :
    blockReduce s = ∑ t ∈ Finset.range 1024, s t := by
  unfold blockReduce warp_reduce
  simp only [List.foldl_cons, List.foldl_nil]
  rw [← Finset.sum_range_one (f := warpStep (warpStep (warpStep (warpStep
    (warpStep (warpStep (blockStep (blockStep (blockStep (blockStep s 512)
      256) 128) 64) 32) 16) 8) 4) 2) 1)]
  rw [sum_warpStep _ 1 2 (by norm_num) rfl]
  rw [sum_warpStep _ 2 4 (by norm_num) rfl]
  rw [sum_warpStep _ 4 8 (by norm_num) rfl]
  rw [sum_warpStep _ 8 16 (by norm_num) rfl]
  rw [sum_warpStep _ 16 32 (by norm_num) rfl]
  rw [sum_warpStep _ 32 64 (by norm_num) rfl]
  rw [sum_blockStep _ 64 128 rfl]
  rw [sum_blockStep _ 128 256 rfl]
  rw [sum_blockStep _ 256 512 rfl]
  rw [sum_blockStep _ 512 1024 rfl]

lemma sum_if_range (g : ℕ → ℤ) (M K : ℕ) (h : M ≤ K) :
    ∑ n ∈ Finset.range K, (if n < M then g n else 0)
      = ∑ n ∈ Finset.range M, g n := by
  rw [← Finset.sum_subset (Finset.range_subset.mpr h)
    (fun n _ hn => if_neg fun hlt => hn (Finset.mem_range.mpr hlt))]
  exact Finset.sum_congr rfl fun n hn => if_pos (Finset.mem_range.mp hn)

lemma check_atom_distance_1_eq (N : ℕ) (d2 : ℚ) (x0 y0 z0 x y z : ℕ → ℚ)
    (bid : ℕ) :
    check_atom_distance_1 N d2 x0 y0 z0 x y z bid
      = ∑ t ∈ Finset.range 1024,
          if bid * 1024 + t < N ∧ d2 < sq_disp x0 y0 z0 x y z (bid * 1024 + t)
          then 1 else 0 :=
  blockReduce_eq_sum _

lemma check_atom_distance_2_eq (M : ℕ) (g : ℕ → ℤ) :
    check_atom_distance_2 M g = ∑ n ∈ Finset.range M, g n := by
  unfold check_atom_distance_2
  rw [blockReduce_eq_sum]
  have h1 : ∑ tid ∈ Finset.range 1024, ∑ p ∈ Finset.range ((M - 1) / 1024 + 1),
        (if tid + p * 1024 < M then g (tid + p * 1024) else 0)
      = ∑ p ∈ Finset.range ((M - 1) / 1024 + 1), ∑ tid ∈ Finset.range 1024,
          (if p * 1024 + tid < M then g (p * 1024 + tid) else 0) := by
    rw [Finset.sum_comm]
    exact Finset.sum_congr rfl fun p _ => Finset.sum_congr rfl fun tid _ => by
      rw [Nat.add_comm]
  rw [h1, sum_blocks (fun n => if n < M then g n else 0) 1024 ((M - 1) / 1024 + 1)]
  exact sum_if_range g M _ (by omega)

/-- `check_atom_distance` computes the exact sum over all `N` particles of
the 0/1 exceed flags. -/
lemma check_atom_distance_eq_sum (N : ℕ) (d2 : ℚ) (x0 y0 z0 x y z : ℕ → ℚ) :
    check_atom_distance N d2 x0 y0 z0 x y z
      = ∑ n ∈ Finset.range N,
          if d2 < sq_disp x0 y0 z0 x y z n then (1 : ℤ) else 0 := by
  unfold check_atom_distance
  rw [check_atom_distance_2_eq]
  have h1 : ∑ bid ∈ Finset.range ((N - 1) / 1024 + 1),
        check_atom_distance_1 N d2 x0 y0 z0 x y z bid
      = ∑ bid ∈ Finset.range ((N - 1) / 1024 + 1), ∑ t ∈ Finset.range 1024,
          (if bid * 1024 + t < N then
            (if d2 < sq_disp x0 y0 z0 x y z (bid * 1024 + t) then (1 : ℤ) else 0)
          else 0) := by
    refine Finset.sum_congr rfl fun bid _ => ?_
    rw [check_atom_distance_1_eq]
    exact Finset.sum_congr rfl fun t _ => by rw [ite_and]
  rw [h1, sum_blocks
    (fun n => if n < N then
      (if d2 < sq_disp x0 y0 z0 x y z n then (1 : ℤ) else 0) else 0)
    1024 ((N - 1) / 1024 + 1)]
  exact sum_if_range _ N _ (by omega)


/-! ### The displacement monitor (claims C1, C8) -/

/-- C1: `check_atom_distance` returns a nonzero value iff at least one
particle `n < N` has squared displacement
`(x[n]-x0[n])² + (y[n]-y0[n])² + (z[n]-z0[n])²` strictly greater than the
threshold `d2`; a zero result means no particle moved beyond `sqrt(d2)`
since the last rebuild, and any particle strictly exceeding it forces a
nonzero (rebuild-due) result. -/
theorem check_atom_distance_nonzero_iff (N : ℕ) (d2 : ℚ)
    (x0 y0 z0 x y z : ℕ → ℚ) :
    check_atom_distance N d2 x0 y0 z0 x y z ≠ 0 ↔
      ∃ n, n < N ∧ d2 < sq_disp x0 y0 z0 x y z n := by
  rw [check_atom_distance_eq_sum]
  have hnn : ∀ i ∈ Finset.range N,
      (0 : ℤ) ≤ if d2 < sq_disp x0 y0 z0 x y z i then 1 else 0 := by
    intro i _
    split <;> norm_num
  rw [Ne, Finset.sum_eq_zero_iff_of_nonneg hnn]
  push_neg
  constructor
  · rintro ⟨n, hn, hne⟩
    refine ⟨n, Finset.mem_range.mp hn, ?_⟩
    by_contra h
    exact hne (if_neg h)
  · rintro ⟨n, hn, hlt⟩
    refine ⟨n, Finset.mem_range.mpr hn, ?_⟩
    rw [if_pos hlt]
    norm_num

/-- C8: for `N ≥ 1` the two-stage reduction returns not merely a flag but
the exact number of particles whose squared displacement since the last
reference snapshot strictly exceeds `d2` (out-of-range block lanes
contribute zero to the sum). -/
theorem check_atom_distance_counts (N : ℕ) (hN : 1 ≤ N) (d2 : ℚ)
    (x0 y0 z0 x y z : ℕ → ℚ) :
    check_atom_distance N d2 x0 y0 z0 x y z
      = (((Finset.range N).filter
            fun n => d2 < sq_disp x0 y0 z0 x y z n).card : ℤ) := by
  rw [check_atom_distance_eq_sum, Finset.sum_boole]

theorem check_atom_distance_counts_example :
    check_atom_distance 1 0 (fun _ => 0) (fun _ => 0) (fun _ => 0)
        (fun _ => 1) (fun _ => 0) (fun _ => 0)
      = (((Finset.range 1).filter
            fun n => (0 : ℚ) < sq_disp (fun _ => 0) (fun _ => 0) (fun _ => 0)
              (fun _ => 1) (fun _ => 0) (fun _ => 0) n).card : ℤ) :=
  check_atom_distance_counts 1 (le_refl 1) 0 _ _ _ _ _ _

/-! ### The periodic wrapper (claims C7, C9, C10) -/

lemma pbc_wrap_of_mem (l c : ℚ) (h0 : 0 ≤ c) (h1 : c ≤ l) :
    pbc_wrap l c = c := by
  unfold pbc_wrap
  rw [if_neg (by linarith), if_neg (by linarith)]

lemma pbc_wrap_mem (l c : ℚ) (hl : 0 ≤ l) (hlo : -l ≤ c) (hhi : c ≤ 2 * l) :
    0 ≤ pbc_wrap l c ∧ pbc_wrap l c ≤ l := by
  unfold pbc_wrap
  split_ifs <;> constructor <;> linarith

lemma pbc_wrap_idem (l c : ℚ) (hl : 0 ≤ l) (hlo : -l ≤ c) (hhi : c ≤ 2 * l) :
    pbc_wrap l (pbc_wrap l c) = pbc_wrap l c :=
  pbc_wrap_of_mem _ _ (pbc_wrap_mem l c hl hlo hhi).1
    (pbc_wrap_mem l c hl hlo hhi).2

/-- C7 counterexample: with box length 1 and a coordinate at -2 (more than
one box length outside), one application of `gpu_apply_pbc` gives -1 and a
second application gives 0, so applying the wrap twice does not equal
applying it once. -/
theorem gpu_apply_pbc_not_idempotent :
    (gpu_apply_pbc 1 1 1 1 (1, 1, 1)
        (gpu_apply_pbc 1 1 1 1 (1, 1, 1) (fun _ => -2) (fun _ => 0)
          (fun _ => 0)).1
        (gpu_apply_pbc 1 1 1 1 (1, 1, 1) (fun _ => -2) (fun _ => 0)
          (fun _ => 0)).2.1
        (gpu_apply_pbc 1 1 1 1 (1, 1, 1) (fun _ => -2) (fun _ => 0)
          (fun _ => 0)).2.2).1 0
      ≠ (gpu_apply_pbc 1 1 1 1 (1, 1, 1) (fun _ => -2) (fun _ => 0)
          (fun _ => 0)).1 0 := by
  norm_num [gpu_apply_pbc, pbc_wrap]

/-- C7 amended: `gpu_apply_pbc` is idempotent on every input it is
designed for — nonnegative box lengths and every coordinate within one
box length of the box (`-L ≤ c ≤ 2L`, the bounded per-interval drift the
spec assumes); in particular any coordinate already in `[0, boxLength)`
is left unchanged by each application.  (Unrestricted idempotence fails:
see the counterexample with a coordinate a full box length outside.) -/
theorem gpu_apply_pbc_idempotent (N : ℕ) (px py pz : ℤ) (L : ℚ × ℚ × ℚ)
    (x y z : ℕ → ℚ)
    (hlx : 0 ≤ L.1) (hly : 0 ≤ L.2.1) (hlz : 0 ≤ L.2.2)
    (hx : ∀ n, -L.1 ≤ x n ∧ x n ≤ 2 * L.1)
    (hy : ∀ n, -L.2.1 ≤ y n ∧ y n ≤ 2 * L.2.1)
    (hz : ∀ n, -L.2.2 ≤ z n ∧ z n ≤ 2 * L.2.2) :
    gpu_apply_pbc N px py pz L
        (gpu_apply_pbc N px py pz L x y z).1
        (gpu_apply_pbc N px py pz L x y z).2.1
        (gpu_apply_pbc N px py pz L x y z).2.2
      = gpu_apply_pbc N px py pz L x y z ∧
    (∀ c : ℚ, 0 ≤ c → c < L.1 → pbc_wrap L.1 c = c) := by
  constructor
  · simp only [gpu_apply_pbc, Prod.mk.injEq]
    refine ⟨?_, ?_, ?_⟩ <;> funext n
    · by_cases h : n < N ∧ px = 1
      · simp [h, pbc_wrap_idem L.1 (x n) hlx (hx n).1 (hx n).2]
      · simp [h]
    · by_cases h : n < N ∧ py = 1
      · simp [h, pbc_wrap_idem L.2.1 (y n) hly (hy n).1 (hy n).2]
      · simp [h]
    · by_cases h : n < N ∧ pz = 1
      · simp [h, pbc_wrap_idem L.2.2 (z n) hlz (hz n).1 (hz n).2]
      · simp [h]
  · exact fun c h0 h1 => pbc_wrap_of_mem _ _ h0 (le_of_lt h1)

theorem gpu_apply_pbc_idempotent_example :
    gpu_apply_pbc 1 1 1 1 (1, 1, 1)
        (gpu_apply_pbc 1 1 1 1 (1, 1, 1) (fun _ => 1 / 2) (fun _ => 3 / 2)
          (fun _ => -1 / 2)).1
        (gpu_apply_pbc 1 1 1 1 (1, 1, 1) (fun _ => 1 / 2) (fun _ => 3 / 2)
          (fun _ => -1 / 2)).2.1
        (gpu_apply_pbc 1 1 1 1 (1, 1, 1) (fun _ => 1 / 2) (fun _ => 3 / 2)
          (fun _ => -1 / 2)).2.2
      = gpu_apply_pbc 1 1 1 1 (1, 1, 1) (fun _ => 1 / 2) (fun _ => 3 / 2)
          (fun _ => -1 / 2) ∧
    (∀ c : ℚ, 0 ≤ c → c < (1 : ℚ) → pbc_wrap 1 c = c) :=
  gpu_apply_pbc_idempotent 1 1 1 1 (1, 1, 1) _ _ _
    (by norm_num) (by norm_num) (by norm_num)
    (fun n => by norm_num) (fun n => by norm_num) (fun n => by norm_num)

/-- C9: the wrap uses strict comparisons.  Coordinates exactly 0 or
exactly `boxLength` are left unchanged; only coordinates strictly below 0
gain one box length and only coordinates strictly above `boxLength` lose
one; hence for any coordinate within one box length of the range the
post-wrap coordinate lies in the closed interval `[0, boxLength]`. -/
theorem pbc_wrap_strict_comparisons (l c : ℚ) (hl : 0 ≤ l) :
    pbc_wrap l 0 = 0 ∧ pbc_wrap l l = l ∧
    (c < 0 → pbc_wrap l c = c + l) ∧
    (l < c → pbc_wrap l c = c - l) ∧
    (0 ≤ c → c ≤ l → pbc_wrap l c = c) ∧
    (-l ≤ c → c ≤ 2 * l → 0 ≤ pbc_wrap l c ∧ pbc_wrap l c ≤ l) := by
  refine ⟨pbc_wrap_of_mem l 0 le_rfl hl, pbc_wrap_of_mem l l hl le_rfl,
    ?_, ?_, fun h0 h1 => pbc_wrap_of_mem l c h0 h1,
    fun h0 h1 => pbc_wrap_mem l c hl h0 h1⟩
  · intro h
    unfold pbc_wrap
    rw [if_pos h]
  · intro h
    unfold pbc_wrap
    rw [if_neg (by linarith), if_pos h]

theorem pbc_wrap_strict_comparisons_example :
    pbc_wrap 1 0 = 0 ∧ pbc_wrap 1 1 = 1 ∧
    ((3 / 2 : ℚ) < 0 → pbc_wrap 1 (3 / 2) = 3 / 2 + 1) ∧
    ((1 : ℚ) < 3 / 2 → pbc_wrap 1 (3 / 2) = 3 / 2 - 1) ∧
    ((0 : ℚ) ≤ 3 / 2 → (3 / 2 : ℚ) ≤ 1 → pbc_wrap 1 (3 / 2) = 3 / 2) ∧
    (-(1 : ℚ) ≤ 3 / 2 → (3 / 2 : ℚ) ≤ 2 * 1 →
      0 ≤ pbc_wrap 1 (3 / 2) ∧ pbc_wrap 1 (3 / 2) ≤ 1) :=
  pbc_wrap_strict_comparisons 1 (3 / 2) (by norm_num)

/-- C10: the wrap step modifies nothing except the current-position
coordinates of periodic axes: reference positions, the neighbor list and
the box lengths are unchanged (the periodicity flags live in the
read-only `Parameters` and cannot change); a coordinate on an axis whose
flag is not set (the kernel tests `pbc == 1`, so any flag ≠ 1) is never
modified, nor is any coordinate of a thread index `n ≥ N`. -/
theorem apply_pbc_frame (para : Parameters) (a : AtomState) :
    (apply_pbc_state para a).x0 = a.x0 ∧
    (apply_pbc_state para a).y0 = a.y0 ∧
    (apply_pbc_state para a).z0 = a.z0 ∧
    (apply_pbc_state para a).nbr = a.nbr ∧
    (apply_pbc_state para a).box_length = a.box_length ∧
    (para.pbc_x ≠ 1 → (apply_pbc_state para a).x = a.x) ∧
    (para.pbc_y ≠ 1 → (apply_pbc_state para a).y = a.y) ∧
    (para.pbc_z ≠ 1 → (apply_pbc_state para a).z = a.z) ∧
    (∀ n, para.N ≤ n →
      (apply_pbc_state para a).x n = a.x n ∧
      (apply_pbc_state para a).y n = a.y n ∧
      (apply_pbc_state para a).z n = a.z n) := by
  refine ⟨rfl, rfl, rfl, rfl, rfl, ?_, ?_, ?_, ?_⟩
  · intro h
    funext n
    exact if_neg fun hc => h hc.2
  · intro h
    funext n
    exact if_neg fun hc => h hc.2
  · intro h
    funext n
    exact if_neg fun hc => h hc.2
  · intro n hn
    exact ⟨if_neg fun hc => absurd hc.1 (Nat.not_lt.mpr hn),
      if_neg fun hc => absurd hc.1 (Nat.not_lt.mpr hn),
      if_neg fun hc => absurd hc.1 (Nat.not_lt.mpr hn)⟩

theorem apply_pbc_frame_example :
    (apply_pbc_state exPara0 exAtom).x0 = exAtom.x0 ∧
    (apply_pbc_state exPara0 exAtom).y0 = exAtom.y0 ∧
    (apply_pbc_state exPara0 exAtom).z0 = exAtom.z0 ∧
    (apply_pbc_state exPara0 exAtom).nbr = exAtom.nbr ∧
    (apply_pbc_state exPara0 exAtom).box_length = exAtom.box_length ∧
    (exPara0.pbc_x ≠ 1 → (apply_pbc_state exPara0 exAtom).x = exAtom.x) ∧
    (exPara0.pbc_y ≠ 1 → (apply_pbc_state exPara0 exAtom).y = exAtom.y) ∧
    (exPara0.pbc_z ≠ 1 → (apply_pbc_state exPara0 exAtom).z = exAtom.z) ∧
    (∀ n, exPara0.N ≤ n →
      (apply_pbc_state exPara0 exAtom).x n = exAtom.x n ∧
      (apply_pbc_state exPara0 exAtom).y n = exAtom.y n ∧
      (apply_pbc_state exPara0 exAtom).z n = exAtom.z n) :=
  apply_pbc_frame exPara0 exAtom

/-! ### The capacity validator (claim C3) -/

lemma check_bound_msgs_nil_iff (para : Parameters) (a : AtomState) :
    check_bound_msgs para a = [] ↔ ∀ n < para.N, a.nbr.NN n ≤ para.MN := by
  simp [check_bound_msgs, List.filter_eq_nil_iff, List.mem_range, not_lt]

lemma check_bound_none_iff (para : Parameters) (a : AtomState) :
    (check_bound para a).2 = none ↔ ∀ n < para.N, a.nbr.NN n ≤ para.MN := by
  have h2 : (check_bound para a).2
      = if check_bound_msgs para a = [] then none else some 1 := rfl
  rw [h2]
  by_cases h : check_bound_msgs para a = []
  · simp only [if_pos h, true_iff]
    exact (check_bound_msgs_nil_iff para a).mp h
  · simp only [if_neg h]
    constructor
    · intro hc
      exact absurd hc (by simp)
    · intro hall
      exact absurd ((check_bound_msgs_nil_iff para a).mpr hall) h

/-- C3: `check_bound` inspects the neighbor count of every particle.  If no
count exceeds `MN` it returns normally with no diagnostics (and, being a
pure read of the counts, changes no state); if one or more counts exceed
`MN` it emits a diagnostic `(index, observed count, capacity MN)` for
every offending particle — not only the first — and exits with the
nonzero status 1.  Lists are never silently truncated: any overflow
aborts the run. -/
theorem check_bound_validates (para : Parameters) (a : AtomState) :
    ((∀ n < para.N, a.nbr.NN n ≤ para.MN) →
      check_bound para a = ([], none)) ∧
    (∀ n < para.N, para.MN < a.nbr.NN n →
      (n, a.nbr.NN n, para.MN) ∈ (check_bound para a).1) ∧
    ((∃ n, n < para.N ∧ para.MN < a.nbr.NN n) →
      (check_bound para a).2 = some 1 ∧ (1 : ℤ) ≠ 0) := by
  refine ⟨?_, ?_, ?_⟩
  · intro h
    have hm : check_bound_msgs para a = [] :=
      (check_bound_msgs_nil_iff para a).mpr h
    simp [check_bound, hm]
  · intro n hn hgt
    show (n, a.nbr.NN n, para.MN) ∈ check_bound_msgs para a
    simp only [check_bound_msgs, List.mem_map, List.mem_filter,
      List.mem_range]
    exact ⟨n, ⟨hn, by simpa using hgt⟩, rfl⟩
  · rintro ⟨n, hn, hgt⟩
    have hm : check_bound_msgs para a ≠ [] := fun h =>
      absurd hgt (not_lt.mpr ((check_bound_msgs_nil_iff para a).mp h n hn))
    exact ⟨by simp [check_bound, hm], by norm_num⟩

theorem check_bound_validates_example :
    ((∀ n < exPara.N, exAtom.nbr.NN n ≤ exPara.MN) →
      check_bound exPara exAtom = ([], none)) ∧
    (∀ n < exPara.N, exPara.MN < exAtom.nbr.NN n →
      (n, exAtom.nbr.NN n, exPara.MN) ∈ (check_bound exPara exAtom).1) ∧
    ((∃ n, n < exPara.N ∧ exPara.MN < exAtom.nbr.NN n) →
      (check_bound exPara exAtom).2 = some 1 ∧ (1 : ℤ) ≠ 0) :=
  check_bound_validates exPara exAtom

/-! ### The algorithm selector (claim C2) -/

/-- C2: the selector uses the O(N²) method exactly when some periodic
axis has `floor(boxLength / rc) < 3` cells or the product of the three
per-axis cell counts (a non-periodic axis contributing 1) is strictly
below `NUM_OF_CELLS = 50`; the cell counts it reports are exactly those
per-axis counts, and the chosen builder follows the `use_ON2` flag: the
exhaustive builder when it is set, the cell-based builder with the
computed counts otherwise. -/
theorem select_method_spec (on2 : BuilderON2) (on1 : BuilderON1)
    (para : Parameters) (a : AtomState) :
    ((select_method para a.box_length).use_ON2 = true ↔
      (para.pbc_x ≠ 0 ∧ Int.floor (a.box_length.1 / para.rc) < 3) ∨
      (para.pbc_y ≠ 0 ∧ Int.floor (a.box_length.2.1 / para.rc) < 3) ∨
      (para.pbc_z ≠ 0 ∧ Int.floor (a.box_length.2.2 / para.rc) < 3) ∨
      ((if para.pbc_x ≠ 0 then Int.floor (a.box_length.1 / para.rc) else 1) *
        (if para.pbc_y ≠ 0 then Int.floor (a.box_length.2.1 / para.rc) else 1) *
        (if para.pbc_z ≠ 0 then Int.floor (a.box_length.2.2 / para.rc) else 1)
        < 50)) ∧
    ((select_method para a.box_length).cell_n_x
      = if para.pbc_x ≠ 0 then Int.floor (a.box_length.1 / para.rc) else 1) ∧
    ((select_method para a.box_length).cell_n_y
      = if para.pbc_y ≠ 0 then Int.floor (a.box_length.2.1 / para.rc) else 1) ∧
    ((select_method para a.box_length).cell_n_z
      = if para.pbc_z ≠ 0 then Int.floor (a.box_length.2.2 / para.rc) else 1) ∧
    ((select_method para a.box_length).use_ON2 = true →
      find_neighbor on2 on1 para a = on2 para a) ∧
    ((select_method para a.box_length).use_ON2 = false →
      find_neighbor on2 on1 para a
        = on1 para a (select_method para a.box_length).cell_n_x
            (select_method para a.box_length).cell_n_y
            (select_method para a.box_length).cell_n_z) := by
  refine ⟨?_, rfl, rfl, rfl, ?_, ?_⟩
  · by_cases hx : para.pbc_x = 0 <;> by_cases hy : para.pbc_y = 0 <;>
      by_cases hz : para.pbc_z = 0 <;>
      simp [select_method, NUM_OF_CELLS, hx, hy, hz] <;> tauto
  · intro h
    simp [find_neighbor, h]
  · intro h
    simp [find_neighbor, h]

/-! ### The driver (claims C4, C5, C6) -/

lemma driver_bootstrap_eq (on2 : BuilderON2) (on1 : BuilderON1)
    (para : Parameters) (a : AtomState)
    (hok : ∀ n < para.N, (find_neighbor on2 on1 para a).NN n ≤ para.MN) :
    find_neighbor_driver on2 on1 para a 1 =
      RunResult.ok
        (update_xyz0_state para { a with nbr := find_neighbor on2 on1 para a })
        [Event.build, Event.validate, Event.snapshot] := by
  have hnone :
      (check_bound para { a with nbr := find_neighbor on2 on1 para a }).2
        = none := (check_bound_none_iff para _).mpr hok
  unfold find_neighbor_driver
  rw [if_pos rfl]
  simp only [hnone]

lemma driver_rebuild_eq (on2 : BuilderON2) (on1 : BuilderON1)
    (para : Parameters) (a : AtomState) (is_first : ℤ)
    (h1 : is_first ≠ 1)
    (hne : check_atom_distance para.N (HALF * HALF) a.x0 a.y0 a.z0
      a.x a.y a.z ≠ 0)
    (hok : ∀ n < para.N, (find_neighbor on2 on1 para a).NN n ≤ para.MN) :
    find_neighbor_driver on2 on1 para a is_first =
      RunResult.ok
        (update_xyz0_state para (apply_pbc_state para
          { a with nbr := find_neighbor on2 on1 para a }))
        [Event.check, Event.build, Event.validate, Event.wrap,
          Event.snapshot] := by
  have hnone :
      (check_bound para { a with nbr := find_neighbor on2 on1 para a }).2
        = none := (check_bound_none_iff para _).mpr hok
  unfold find_neighbor_driver
  rw [if_neg h1, if_pos hne]
  simp only [hnone]

/-- C4: in any steady-state invocation (`is_first ≠ 1`) in which the
displacement check returns zero, the driver returns at once: no builder
is invoked (the event trace is just the displacement check) and the
returned state is the input state — neighbor list, current positions and
reference positions all unchanged. -/
theorem driver_steady_state_noop (on2 : BuilderON2) (on1 : BuilderON1)
    (para : Parameters) (a : AtomState) (is_first : ℤ)
    (h1 : is_first ≠ 1)
    (h0 : check_atom_distance para.N (HALF * HALF) a.x0 a.y0 a.z0
      a.x a.y a.z = 0) :
    find_neighbor_driver on2 on1 para a is_first
      = RunResult.ok a [Event.check] := by
  unfold find_neighbor_driver
  rw [if_neg h1, if_neg fun hne => hne h0]

theorem driver_steady_state_noop_example :
    find_neighbor_driver exOn2 exOn1 exPara exAtom 0
      = RunResult.ok exAtom [Event.check] :=
  driver_steady_state_noop exOn2 exOn1 exPara exAtom 0 (by decide)
    (by
      rw [check_atom_distance_eq_sum]
      norm_num [exPara, exAtom, sq_disp, HALF])

/-- C5: a bootstrap invocation (`is_first == 1`) unconditionally builds
the list with the selected builder, validates capacity, and copies the current
position of every particle into its reference position — with no
displacement check and no periodic wrap (neither event occurs in the
trace); the current positions in the result are those of the input, and
afterward reference positions equal current positions. -/
theorem driver_bootstrap (on2 : BuilderON2) (on1 : BuilderON1)
    (para : Parameters) (a : AtomState)
    (hok : ∀ n < para.N, (find_neighbor on2 on1 para a).NN n ≤ para.MN) :
    find_neighbor_driver on2 on1 para a 1 =
      RunResult.ok
        { a with
            nbr := find_neighbor on2 on1 para a,
            x0 := fun n => if n < para.N then a.x n else a.x0 n,
            y0 := fun n => if n < para.N then a.y n else a.y0 n,
            z0 := fun n => if n < para.N then a.z n else a.z0 n }
        [Event.build, Event.validate, Event.snapshot] :=
  driver_bootstrap_eq on2 on1 para a hok

theorem driver_bootstrap_example :
    find_neighbor_driver exOn2 exOn1 exPara exAtom 1 =
      RunResult.ok
        { exAtom with
            nbr := find_neighbor exOn2 exOn1 exPara exAtom,
            x0 := fun n => if n < exPara.N then exAtom.x n else exAtom.x0 n,
            y0 := fun n => if n < exPara.N then exAtom.y n else exAtom.y0 n,
            z0 := fun n => if n < exPara.N then exAtom.z n else exAtom.z0 n }
        [Event.build, Event.validate, Event.snapshot] :=
  driver_bootstrap exOn2 exOn1 exPara exAtom
    (by
      intro n hn
      simp [find_neighbor, exOn2, exOn1, exNbr, exPara])

/-- C6: in every invocation that rebuilds, the operations happen in the
order recorded by the event trace — build, validate, then (on steady-state
rebuilds only) wrap, then snapshot; the wrap never occurs on a no-rebuild
step (whose trace is just the check); and at the end of every rebuilding
invocation the reference position of each particle equals its (post-wrap)
current position. -/
theorem driver_rebuild_order (on2 : BuilderON2) (on1 : BuilderON1)
    (para : Parameters) (a : AtomState) (is_first : ℤ)
    (hok : ∀ n < para.N, (find_neighbor on2 on1 para a).NN n ≤ para.MN) :
    (is_first = 1 →
      ∃ b, find_neighbor_driver on2 on1 para a is_first
          = RunResult.ok b [Event.build, Event.validate, Event.snapshot] ∧
        ∀ n < para.N, b.x0 n = b.x n ∧ b.y0 n = b.y n ∧ b.z0 n = b.z n) ∧
    (is_first ≠ 1 →
      check_atom_distance para.N (HALF * HALF) a.x0 a.y0 a.z0 a.x a.y a.z
        ≠ 0 →
      ∃ b, find_neighbor_driver on2 on1 para a is_first
          = RunResult.ok b [Event.check, Event.build, Event.validate,
              Event.wrap, Event.snapshot] ∧
        ∀ n < para.N, b.x0 n = b.x n ∧ b.y0 n = b.y n ∧ b.z0 n = b.z n) ∧
    (is_first ≠ 1 →
      check_atom_distance para.N (HALF * HALF) a.x0 a.y0 a.z0 a.x a.y a.z
        = 0 →
      find_neighbor_driver on2 on1 para a is_first
        = RunResult.ok a [Event.check]) := by
  refine ⟨?_, ?_, ?_⟩
  · intro h1
    subst h1
    refine ⟨_, driver_bootstrap_eq on2 on1 para a hok, ?_⟩
    intro n hn
    simp [update_xyz0_state, gpu_update_xyz0, hn]
  · intro h1 hne
    refine ⟨_, driver_rebuild_eq on2 on1 para a is_first h1 hne hok, ?_⟩
    intro n hn
    simp [update_xyz0_state, gpu_update_xyz0, hn]
  · intro h1 h0
    unfold find_neighbor_driver
    rw [if_neg h1, if_neg fun hne => hne h0]

theorem driver_rebuild_order_example :
    (1 = (1 : ℤ) →
      ∃ b, find_neighbor_driver exOn2 exOn1 exPara exAtom 1
          = RunResult.ok b [Event.build, Event.validate, Event.snapshot] ∧
        ∀ n < exPara.N, b.x0 n = b.x n ∧ b.y0 n = b.y n ∧ b.z0 n = b.z n) ∧
    ((1 : ℤ) ≠ 1 →
      check_atom_distance exPara.N (HALF * HALF) exAtom.x0 exAtom.y0
        exAtom.z0 exAtom.x exAtom.y exAtom.z ≠ 0 →
      ∃ b, find_neighbor_driver exOn2 exOn1 exPara exAtom 1
          = RunResult.ok b [Event.check, Event.build, Event.validate,
              Event.wrap, Event.snapshot] ∧
        ∀ n < exPara.N, b.x0 n = b.x n ∧ b.y0 n = b.y n ∧ b.z0 n = b.z n) ∧
    ((1 : ℤ) ≠ 1 →
      check_atom_distance exPara.N (HALF * HALF) exAtom.x0 exAtom.y0
        exAtom.z0 exAtom.x exAtom.y exAtom.z = 0 →
      find_neighbor_driver exOn2 exOn1 exPara exAtom 1
        = RunResult.ok exAtom [Event.check]) :=
  driver_rebuild_order exOn2 exOn1 exPara exAtom 1
    (by
      intro n hn
      simp [find_neighbor, exOn2, exOn1, exNbr, exPara])

end GPUMD
